import Mathlib

/-!
Verification of the GeoGuesser round and scoring logic of src/app.js.

Shallow embedding of the round-progression state machine and the scoring
functions of `src/app.js`.  Pure numeric code (`computeScore`, `haversine`)
is embedded over an ordered field (`ℚ` for the decidable claims, `ℝ` for the
trigonometric distance formula); the module-level mutable variables become an
explicit `GameState` record and each event handler becomes a state-transition
function.  Browser alerts are modelled as an explicit event list returned by
the transitions.
-/

namespace GeoGuesser

/-! Scorer  (src/app.js lines 121-128)

```js
function computeScore(distanceKm) {
  const max = 5000;
  const maxDist = 20000;
  if (distanceKm <= 1) return max;
  const val = Math.round(Math.max(0, max * (1 - Math.min(distanceKm / maxDist, 1))));
  return val;
}
```
JavaScript `Math.round` is round-half-up, i.e. `⌊x + 1/2⌋`, which is exactly
Mathlib's `round`.  The source's local constants `max`/`maxDist` are named
`maxPts`/`maxDist` here to avoid shadowing `Max.max`. -/

def computeScore {α : Type} [LinearOrderedField α] [FloorRing α] (distanceKm : α) : ℤ :=
  let maxPts : α := 5000
  let maxDist : α := 20000
  if distanceKm ≤ 1 then 5000
  else round (max 0 (maxPts * (1 - min (distanceKm / maxDist) 1)))

/-- The scoring curve exactly as claim C1 / the spec words it:
"returns 5000 if `distanceKm <= 1`; otherwise
`round(max(0, 5000 * (1 - min(distanceKm/20000, 1))))`". -/
def scoreSpecC1 (d : ℚ) : ℤ :=
  if d ≤ 1 then 5000 else round (max 0 (5000 * (1 - min (d / 20000) 1)))

/-! Distance  (src/app.js lines 110-119)

```js
function haversine(lat1, lon1, lat2, lon2) {
  const R = 6371; // km
  const toRad = v => v * Math.PI / 180;
  const dLat = toRad(lat2 - lat1);
  const dLon = toRad(lon2 - lon1);
  const a = Math.sin(dLat/2)*Math.sin(dLat/2)
          + Math.cos(toRad(lat1))*Math.cos(toRad(lat2))*Math.sin(dLon/2)*Math.sin(dLon/2);
  const c = 2 * Math.atan2(Math.sqrt(a), Math.sqrt(1-a));
  return R * c;
}
```
Embedded over `ℝ`; `Math.atan2` is modelled by its standard piecewise
definition in terms of `arctan`. -/

noncomputable def toRad (v : ℝ) : ℝ := v * Real.pi / 180

/-- JavaScript `Math.atan2(y, x)` (real-argument case). -/
noncomputable def atan2 (y x : ℝ) : ℝ :=
  if 0 < x then Real.arctan (y / x)
  else if x < 0 ∧ 0 ≤ y then Real.arctan (y / x) + Real.pi
  else if x < 0 ∧ y < 0 then Real.arctan (y / x) - Real.pi
  else if x = 0 ∧ 0 < y then Real.pi / 2
  else if x = 0 ∧ y < 0 then -(Real.pi / 2)
  else 0

/-- The intermediate value `a` of the haversine formula. -/
noncomputable def havA (lat1 lon1 lat2 lon2 : ℝ) : ℝ :=
  Real.sin (toRad (lat2 - lat1) / 2) * Real.sin (toRad (lat2 - lat1) / 2) +
    Real.cos (toRad lat1) * Real.cos (toRad lat2) *
      (Real.sin (toRad (lon2 - lon1) / 2) * Real.sin (toRad (lon2 - lon1) / 2))

noncomputable def haversine (lat1 lon1 lat2 lon2 : ℝ) : ℝ :=
  6371 * (2 * atan2 (Real.sqrt (havA lat1 lon1 lat2 lon2))
    (Real.sqrt (1 - havA lat1 lon1 lat2 lon2)))

/-! Shuffle  (src/app.js lines 40-46)

```js
function shuffle(arr){
  for (let i = arr.length -1; i>0; i--){
    const j = Math.floor(Math.random()*(i+1));
    [arr[i], arr[j]] = [arr[j], arr[i]];
  }
  return arr;
}
```
The stream of random draws is made explicit: `r i` stands for
`Math.floor(Math.random()*(i+1))` at loop index `i`; the source guarantees
`r i ≤ i`, which becomes a hypothesis where it matters. -/

def swapAt {α : Type} (l : List α) (i j : ℕ) : List α :=
  match l[i]?, l[j]? with
  | some a, some b => (l.set i b).set j a
  | _, _ => l

def shuffleFrom {α : Type} (r : ℕ → ℕ) : ℕ → List α → List α
  | 0, arr => arr
  | i + 1, arr => shuffleFrom r i (swapAt arr (i + 1) (r (i + 1)))

def shuffle {α : Type} (arr : List α) (r : ℕ → ℕ) : List α :=
  shuffleFrom r (arr.length - 1) arr

/-! Game session state  (src/app.js lines 4-10 and event handlers)

The module-level mutable variables
`images, currentIndex, roundsTotal, roundNum, totalScore, hasGuessed`
become the fields of `GameState`; the `disabled` properties of the start and
next buttons are included because they gate which handlers the browser can
fire.  Leaflet markers, the polyline and DOM text nodes are presentational
and are not modelled.  `alert` calls become explicit events. -/

structure Loc where
  url : String
  name : String
  hint : String
  lat : ℚ
  lng : ℚ
deriving DecidableEq

structure GameState where
  images : List Loc
  currentIndex : ℤ
  roundsTotal : ℕ
  roundNum : ℕ
  totalScore : ℤ
  hasGuessed : Bool
  startDisabled : Bool
  nextDisabled : Bool
deriving DecidableEq

/-- The initial module state: `images = []`, `currentIndex = -1`,
`roundsTotal = 5`, `roundNum = 0`, `totalScore = 0`, `hasGuessed = false`;
the start button is clickable, the next button is not (it is only ever
enabled after a guess). -/
def initState : GameState :=
  { images := [], currentIndex := -1, roundsTotal := 5, roundNum := 0,
    totalScore := 0, hasGuessed := false, startDisabled := false,
    nextDisabled := true }

/-- Observable browser effects (the two `alert` calls). -/
inductive Ev where
  | noData
  | gameOver (finalScore : ℤ)
deriving DecidableEq

/-- Function `endGame` (lines 180-189): reports the final score, re-enables
the start button, disables next, resets `roundNum` to 0. -/
def endGame (s : GameState) : GameState × List Ev :=
  ({ s with roundNum := 0, startDisabled := false, nextDisabled := true },
    [Ev.gameOver s.totalScore])

/-- Function `resetRoundState` (lines 167-177): clears markers (unmodelled),
resets `hasGuessed`, disables the next button. -/
def resetRoundState (s : GameState) : GameState :=
  { s with hasGuessed := false, nextDisabled := true }

/-- Function `proceedNextRound` (lines 146-156): increments `roundNum`; past
the round or location budget it ends the game, otherwise it selects
`currentIndex = roundNum - 1` and resets the round state. -/
def proceedNextRound (s : GameState) : GameState × List Ev :=
  if s.roundNum + 1 > s.roundsTotal ∨ s.roundNum + 1 > s.images.length then
    endGame { s with roundNum := s.roundNum + 1 }
  else
    (resetRoundState
      { s with roundNum := s.roundNum + 1,
               currentIndex := ((s.roundNum + 1 : ℕ) : ℤ) - 1 }, [])

/-- Function `startGame` (lines 131-144) together with `loadDataset`
(lines 28-38): the fetched dataset (empty on fetch failure) is shuffled and
stored in `images` first; if it is empty an alert is raised and the handler
returns with no further change; otherwise `roundNum` and `totalScore` are
reset, both buttons are disabled and the first round begins. -/
def startGame (s : GameState) (fetched : List Loc) (r : ℕ → ℕ) :
    GameState × List Ev :=
  if (shuffle fetched r).length = 0 then
    ({ s with images := shuffle fetched r }, [Ev.noData])
  else proceedNextRound
    { s with images := shuffle fetched r, roundNum := 0, totalScore := 0,
             nextDisabled := true, startDisabled := true }

/-- JavaScript `images[currentIndex]`: `undefined` (`none`) when the index is
out of range. -/
def getLoc (l : List Loc) (i : ℤ) : Option Loc :=
  if i < 0 then none else l[i.toNat]?

/-- Function `onMapClick` (lines 60-108): ignores the click before the game
starts or after the round's guess; otherwise reads the active location, adds
`computeScore (haversine …)` to the total, marks the round as guessed and
enables the next button.  If `images[currentIndex]` were `undefined` the
handler would throw before touching any modelled field (`none` branch). -/
noncomputable def onMapClick (s : GameState) (glat glng : ℚ) : GameState :=
  if s.roundNum = 0 then s
  else if s.hasGuessed then s
  else
    match getLoc s.images s.currentIndex with
    | none => s
    | some actual =>
        let distKm : ℝ := haversine (glat : ℝ) (glng : ℝ) (actual.lat : ℝ) (actual.lng : ℝ)
        let points : ℤ := computeScore distKm
        { s with totalScore := s.totalScore + points,
                 hasGuessed := true, nextDisabled := false }

/-- The next-button listener (lines 192-199): no-op unless a guess was made;
ends the game once `roundNum ≥ roundsTotal`, otherwise advances the round. -/
def nextClick (s : GameState) : GameState × List Ev :=
  if s.hasGuessed = false then (s, [])
  else if s.roundsTotal ≤ s.roundNum then endGame s
  else proceedNextRound s

/-- States reachable through the browser event loop: handlers attached to a
disabled button cannot fire, so the start/next transitions require the
corresponding button to be enabled; the map is always clickable. -/
inductive Reachable : GameState → Prop where
  | init : Reachable initState
  | start (s : GameState) (fetched : List Loc) (r : ℕ → ℕ)
      (hs : Reachable s) (hbtn : s.startDisabled = false) :
      Reachable (startGame s fetched r).1
  | click (s : GameState) (glat glng : ℚ) (hs : Reachable s) :
      Reachable (onMapClick s glat glng)
  | next (s : GameState) (hs : Reachable s) (hbtn : s.nextDisabled = false) :
      Reachable (nextClick s).1

/-- Invariant of all browser-reachable states: `roundNum` never exceeds
`roundsTotal`; while a round is active (`1 ≤ roundNum`) the start button is
disabled, `currentIndex = roundNum - 1` and there are at least `roundNum`
locations; the next button is only enabled inside a guessed round. -/
def Inv (s : GameState) : Prop :=
  s.roundNum ≤ s.roundsTotal ∧
  (1 ≤ s.roundNum →
    s.startDisabled = true ∧ s.currentIndex = (s.roundNum : ℤ) - 1 ∧
    s.roundNum ≤ s.images.length) ∧
  (s.nextDisabled = false → 1 ≤ s.roundNum ∧ s.hasGuessed = true)

/-! Concrete data used by the witness theorems, and the play-through chain
for round counting.  A play-through is the alternating event sequence
guess (map click), next (button click), starting from the state produced by
`startGame`.  `playChain g s k` is the state after `k` completed
guess-and-next rounds, with `g k` the guess coordinates of round `k + 1`;
`playEv g s k` collects the alerts of the `(k+1)`-st next click. -/

def locA : Loc := { url := "a.jpg", name := "A", hint := "ha", lat := 10, lng := 20 }

def locB : Loc := { url := "b.jpg", name := "B", hint := "hb", lat := -30, lng := 40 }

def rzero : ℕ → ℕ := fun _ => 0

/-- Constant guess stream for the C2 witness. -/
def gconst : ℕ → ℚ × ℚ := fun _ => (3, 4)

/-- The state after a complete one-location game (start, guess, next):
`roundNum = 0`, the start button is enabled again, and `images = [locA]`
is still loaded.  Used to refute the "session state unchanged" part of C6. -/
noncomputable def ceStateC6 : GameState :=
  (nextClick (onMapClick (startGame initState [locA] rzero).1 0 0)).1

noncomputable def playChain (g : ℕ → ℚ × ℚ) (s : GameState) : ℕ → GameState
  | 0 => s
  | k + 1 => (nextClick (onMapClick (playChain g s k) (g k).1 (g k).2)).1

noncomputable def playEv (g : ℕ → ℚ × ℚ) (s : GameState) (k : ℕ) : List Ev :=
  (nextClick (onMapClick (playChain g s k) (g k).1 (g k).2)).2

/-- Round `k` is active and awaiting a guess, in a session with round budget
`R` and `N` loaded locations. -/
def ActiveAt (s : GameState) (R N k : ℕ) : Prop :=
  s.roundsTotal = R ∧ s.images.length = N ∧ s.roundNum = k ∧
  s.hasGuessed = false ∧ s.currentIndex = (k : ℤ) - 1

/-! Helper lemmas: scorer bounds -/

lemma round_mono {α : Type} [LinearOrderedField α] [FloorRing α]
    {x y : α} (h : x ≤ y) : round x ≤ round y := by
  rw [round_eq, round_eq]
  exact Int.floor_le_floor (by linarith)

lemma computeScore_nonneg {α : Type} [LinearOrderedField α] [FloorRing α]
    (d : α) : 0 ≤ computeScore d := by
  unfold computeScore
  split
  · norm_num
  · have h0 : (0 : ℤ) = round (0 : α) := (round_zero).symm
    rw [h0]
    exact round_mono (le_max_left _ _)

lemma computeScore_le_5000 {α : Type} [LinearOrderedField α] [FloorRing α]
    {d : α} (hd : 0 < d) : computeScore d ≤ 5000 := by
  unfold computeScore
  split
  · exact le_refl 5000
  · have hmin : 0 ≤ min (d / 20000) 1 :=
      le_min (le_of_lt (div_pos hd (by norm_num))) zero_le_one
    have harg : max 0 ((5000 : α) * (1 - min (d / 20000) 1)) ≤ 5000 := by
      apply max_le (by norm_num)
      nlinarith
    calc round (max 0 ((5000 : α) * (1 - min (d / 20000) 1)))
        ≤ round (5000 : α) := round_mono harg
      _ = 5000 := round_ofNat 5000

/-! Helper lemmas: haversine -/

lemma havA_symm (a b c d : ℝ) : havA a b c d = havA c d a b := by
  unfold havA
  have h1 : toRad (a - c) / 2 = -(toRad (c - a) / 2) := by unfold toRad; ring
  have h2 : toRad (b - d) / 2 = -(toRad (d - b) / 2) := by unfold toRad; ring
  rw [h1, h2, Real.sin_neg, Real.sin_neg]
  ring

lemma havA_self (x y : ℝ) : havA x y x y = 0 := by
  unfold havA toRad
  simp [sub_self]

lemma atan2_zero_one : atan2 0 1 = 0 := by
  unfold atan2
  rw [if_pos one_pos]
  simp [Real.arctan_zero]

lemma haversine_of_havA_zero {lat1 lon1 lat2 lon2 : ℝ}
    (h : havA lat1 lon1 lat2 lon2 = 0) : haversine lat1 lon1 lat2 lon2 = 0 := by
  unfold haversine
  rw [h]
  simp [Real.sqrt_zero, Real.sqrt_one, atan2_zero_one]

/-! Helper lemmas: shuffle is a permutation -/

lemma swapAt_length {α : Type} (l : List α) (i j : ℕ) :
    (swapAt l i j).length = l.length := by
  unfold swapAt
  split <;> simp

lemma shuffleFrom_length {α : Type} (r : ℕ → ℕ) :
    ∀ (n : ℕ) (l : List α), (shuffleFrom r n l).length = l.length := by
  intro n
  induction n with
  | zero => intro l; rfl
  | succ n ih =>
      intro l
      unfold shuffleFrom
      rw [ih, swapAt_length]

lemma shuffle_length {α : Type} (l : List α) (r : ℕ → ℕ) :
    (shuffle l r).length = l.length := shuffleFrom_length r _ l

lemma cons_get_set_perm {α : Type} :
    ∀ (t : List α) (i : ℕ) (hi : i < t.length) (x : α),
      List.Perm (t.get ⟨i, hi⟩ :: t.set i x) (x :: t) := by
  intro t
  induction t with
  | nil => intro i hi x; simp at hi
  | cons a t2 ih =>
      intro i hi x
      cases i with
      | zero => simpa using List.Perm.swap x a t2
      | succ i =>
          have hi2 : i < t2.length := by simpa using hi
          have step1 : List.Perm (t2.get ⟨i, hi2⟩ :: a :: t2.set i x)
              (a :: t2.get ⟨i, hi2⟩ :: t2.set i x) := List.Perm.swap a _ _
          have step2 : List.Perm (a :: t2.get ⟨i, hi2⟩ :: t2.set i x)
              (a :: x :: t2) := List.Perm.cons a (ih i hi2 x)
          have step3 : List.Perm (a :: x :: t2) (x :: a :: t2) := List.Perm.swap x a t2
          simpa using (step1.trans step2).trans step3

lemma swapAt_perm {α : Type} :
    ∀ (l : List α) (i j : ℕ), j ≤ i → i < l.length → List.Perm (swapAt l i j) l := by
  intro l
  induction l with
  | nil => intro i j _ hi; simp at hi
  | cons x t ih =>
      intro i j hj hi
      cases i with
      | zero =>
          interval_cases j
          simp [swapAt]
      | succ i =>
          have hit : i < t.length := by simpa using hi
          cases j with
          | zero =>
              have hget : t[i]? = some (t.get ⟨i, hit⟩) := by
                simp [List.getElem?_eq_getElem hit]
              have : swapAt (x :: t) (i + 1) 0 = t.get ⟨i, hit⟩ :: t.set i x := by
                unfold swapAt
                rw [List.getElem?_cons_succ, hget]
                simp
              rw [this]
              exact cons_get_set_perm t i hit x
          | succ j =>
              have hjt : j < t.length := Nat.lt_of_le_of_lt (Nat.le_of_succ_le_succ hj) hit
              have hgi : t[i]? = some (t.get ⟨i, hit⟩) := by
                simp [List.getElem?_eq_getElem hit]
              have hgj : t[j]? = some (t.get ⟨j, hjt⟩) := by
                simp [List.getElem?_eq_getElem hjt]
              have hout : swapAt (x :: t) (i + 1) (j + 1) = x :: swapAt t i j := by
                unfold swapAt
                rw [List.getElem?_cons_succ, List.getElem?_cons_succ, hgi, hgj]
                simp
              rw [hout]
              exact List.Perm.cons x (ih i j (Nat.le_of_succ_le_succ hj) hit)

lemma shuffleFrom_perm {α : Type} (r : ℕ → ℕ) (hr : ∀ i, r i ≤ i) :
    ∀ (n : ℕ) (l : List α), n < l.length → List.Perm (shuffleFrom r n l) l := by
  intro n
  induction n with
  | zero => intro l _; exact List.Perm.refl l
  | succ n ih =>
      intro l hn
      unfold shuffleFrom
      have hswap : List.Perm (swapAt l (n + 1) (r (n + 1))) l :=
        swapAt_perm l (n + 1) (r (n + 1)) (hr (n + 1)) hn
      have hlen : n < (swapAt l (n + 1) (r (n + 1))).length := by
        rw [swapAt_length]; omega
      exact (ih _ hlen).trans hswap

lemma shuffle_perm {α : Type} (l : List α) (r : ℕ → ℕ) (hr : ∀ i, r i ≤ i) :
    List.Perm (shuffle l r) l := by
  unfold shuffle
  cases l with
  | nil => exact List.Perm.refl _
  | cons x t =>
      apply shuffleFrom_perm r hr
      simp

/-! Helper lemmas: transition behaviour -/

lemma onMapClick_of_roundZero {s : GameState} (h : s.roundNum = 0)
    (a b : ℚ) : onMapClick s a b = s := by
  unfold onMapClick
  rw [if_pos h]

lemma onMapClick_of_hasGuessed {s : GameState} (h : s.hasGuessed = true)
    (a b : ℚ) : onMapClick s a b = s := by
  unfold onMapClick
  by_cases h0 : s.roundNum = 0
  · rw [if_pos h0]
  · rw [if_neg h0, if_pos h]

lemma onMapClick_of_none {s : GameState} (h0 : ¬ s.roundNum = 0)
    (h1 : s.hasGuessed = false) (h2 : getLoc s.images s.currentIndex = none)
    (a b : ℚ) : onMapClick s a b = s := by
  unfold onMapClick
  rw [if_neg h0, if_neg (by simp [h1]), h2]

lemma onMapClick_of_some {s : GameState} {actual : Loc}
    (h0 : ¬ s.roundNum = 0) (h1 : s.hasGuessed = false)
    (h2 : getLoc s.images s.currentIndex = some actual) (a b : ℚ) :
    onMapClick s a b =
      { s with
        totalScore := s.totalScore +
          computeScore (haversine (a : ℝ) (b : ℝ) (actual.lat : ℝ) (actual.lng : ℝ)),
        hasGuessed := true, nextDisabled := false } := by
  unfold onMapClick
  rw [if_neg h0, if_neg (by simp [h1]), h2]

lemma onMapClick_preserve (s : GameState) (a b : ℚ) :
    (onMapClick s a b).images = s.images ∧
    (onMapClick s a b).currentIndex = s.currentIndex ∧
    (onMapClick s a b).roundNum = s.roundNum ∧
    (onMapClick s a b).roundsTotal = s.roundsTotal ∧
    (onMapClick s a b).startDisabled = s.startDisabled := by
  unfold onMapClick
  split
  · exact ⟨rfl, rfl, rfl, rfl, rfl⟩
  · split
    · exact ⟨rfl, rfl, rfl, rfl, rfl⟩
    · split
      · exact ⟨rfl, rfl, rfl, rfl, rfl⟩
      · exact ⟨rfl, rfl, rfl, rfl, rfl⟩

lemma onMapClick_totalScore_le (s : GameState) (a b : ℚ) :
    s.totalScore ≤ (onMapClick s a b).totalScore := by
  unfold onMapClick
  split
  · exact le_refl _
  · split
    · exact le_refl _
    · split
      · exact le_refl _
      · next actual heq =>
          show s.totalScore ≤ s.totalScore +
            computeScore (haversine (a : ℝ) (b : ℝ) (actual.lat : ℝ) (actual.lng : ℝ))
          exact le_add_of_nonneg_right (computeScore_nonneg _)

lemma endGame_totalScore (s : GameState) : (endGame s).1.totalScore = s.totalScore := rfl

lemma endGame_images (s : GameState) : (endGame s).1.images = s.images := rfl

lemma proceedNextRound_totalScore (s : GameState) :
    (proceedNextRound s).1.totalScore = s.totalScore := by
  unfold proceedNextRound
  split
  · rfl
  · rfl

lemma proceedNextRound_images (s : GameState) :
    (proceedNextRound s).1.images = s.images := by
  unfold proceedNextRound
  split
  · rfl
  · rfl

lemma nextClick_totalScore (s : GameState) :
    (nextClick s).1.totalScore = s.totalScore := by
  unfold nextClick
  split
  · rfl
  · split
    · rfl
    · exact proceedNextRound_totalScore s

lemma nextClick_images (s : GameState) :
    (nextClick s).1.images = s.images := by
  unfold nextClick
  split
  · rfl
  · split
    · rfl
    · exact proceedNextRound_images s

lemma startGame_nil (s : GameState) (r : ℕ → ℕ) :
    startGame s [] r = ({ s with images := [] }, [Ev.noData]) := by
  unfold startGame
  rw [show shuffle ([] : List Loc) r = [] from rfl]
  simp

/-! Helper lemmas: the reachability invariant -/

lemma inv_init : Inv initState := by
  refine ⟨by norm_num [initState], ?_, ?_⟩
  · intro h; simp [initState] at h
  · intro h; simp [initState] at h

lemma inv_endGame (s : GameState) : Inv (endGame s).1 := by
  refine ⟨Nat.zero_le _, ?_, ?_⟩
  · intro h; simp [endGame] at h
  · intro h; simp [endGame] at h

lemma inv_proceedNextRound (s : GameState) (hsd : s.startDisabled = true) :
    Inv (proceedNextRound s).1 := by
  unfold proceedNextRound
  split
  · exact inv_endGame _
  · next h =>
      push_neg at h
      refine ⟨?_, ?_, ?_⟩
      · show s.roundNum + 1 ≤ s.roundsTotal
        omega
      · intro _
        refine ⟨hsd, rfl, ?_⟩
        show s.roundNum + 1 ≤ s.images.length
        omega
      · intro hfalse
        exact Bool.noConfusion hfalse

lemma inv_startGame (s : GameState) (fetched : List Loc) (r : ℕ → ℕ)
    (hInv : Inv s) (hbtn : s.startDisabled = false) :
    Inv (startGame s fetched r).1 := by
  have hrz : s.roundNum = 0 := by
    by_contra hne
    have := (hInv.2.1 (by omega)).1
    rw [hbtn] at this
    exact Bool.false_ne_true this
  unfold startGame
  split
  · refine ⟨by simpa using hInv.1, ?_, ?_⟩
    · intro h; simp [hrz] at h
    · intro h
      have := (hInv.2.2 (by simpa using h)).1
      omega
  · exact inv_proceedNextRound _ rfl

lemma inv_onMapClick (s : GameState) (a b : ℚ) (hInv : Inv s) :
    Inv (onMapClick s a b) := by
  by_cases h0 : s.roundNum = 0
  · rw [onMapClick_of_roundZero h0]; exact hInv
  · by_cases h1 : s.hasGuessed = true
    · rw [onMapClick_of_hasGuessed h1]; exact hInv
    · have h1f : s.hasGuessed = false := by
        cases hg : s.hasGuessed
        · rfl
        · exact absurd hg h1
      cases h2 : getLoc s.images s.currentIndex with
      | none => rw [onMapClick_of_none h0 h1f h2]; exact hInv
      | some actual =>
          rw [onMapClick_of_some h0 h1f h2]
          refine ⟨hInv.1, fun h => hInv.2.1 h, fun _ => ⟨?_, rfl⟩⟩
          show 1 ≤ s.roundNum
          omega

lemma inv_nextClick (s : GameState) (hInv : Inv s)
    (hbtn : s.nextDisabled = false) : Inv (nextClick s).1 := by
  obtain ⟨hrn, hg⟩ := hInv.2.2 hbtn
  have hsd := (hInv.2.1 hrn).1
  unfold nextClick
  rw [if_neg (by simp [hg])]
  split
  · exact inv_endGame s
  · exact inv_proceedNextRound s hsd

lemma reachable_inv {s : GameState} (h : Reachable s) : Inv s := by
  induction h with
  | init => exact inv_init
  | start s fetched r hs hbtn ih => exact inv_startGame s fetched r ih hbtn
  | click s glat glng hs ih => exact inv_onMapClick s glat glng ih
  | next s hs hbtn ih => exact inv_nextClick s ih hbtn

/-! Helper lemmas: round counting -/

lemma guess_accepted {s : GameState} {R N k : ℕ} (hA : ActiveAt s R N k)
    (h1 : 1 ≤ k) (hkN : k ≤ N) (a b : ℚ) :
    ∃ actual : Loc,
      onMapClick s a b =
        { s with
          totalScore := s.totalScore +
            computeScore (haversine (a : ℝ) (b : ℝ) (actual.lat : ℝ) (actual.lng : ℝ)),
          hasGuessed := true, nextDisabled := false } := by
  obtain ⟨hR, hN, hk, hg, hci⟩ := hA
  have hlt : s.currentIndex.toNat < s.images.length := by
    rw [hci, hN]; omega
  have hsome : getLoc s.images s.currentIndex =
      some (s.images.get ⟨s.currentIndex.toNat, hlt⟩) := by
    unfold getLoc
    rw [if_neg (by rw [hci]; omega)]
    simp [List.getElem?_eq_getElem hlt]
  exact ⟨s.images.get ⟨s.currentIndex.toNat, hlt⟩,
    onMapClick_of_some (by omega) hg hsome a b⟩

lemma nextClick_continue {s : GameState} (hg : s.hasGuessed = true)
    (hltR : s.roundNum < s.roundsTotal) (hltN : s.roundNum < s.images.length) :
    nextClick s =
      (resetRoundState
        { s with roundNum := s.roundNum + 1,
                 currentIndex := ((s.roundNum + 1 : ℕ) : ℤ) - 1 }, []) := by
  unfold nextClick
  rw [if_neg (by simp [hg]), if_neg (by omega)]
  unfold proceedNextRound
  rw [if_neg (by omega)]

lemma nextClick_gameover {s : GameState} (hg : s.hasGuessed = true)
    (hend : s.roundsTotal ≤ s.roundNum ∨ s.images.length ≤ s.roundNum) :
    (nextClick s).1.roundNum = 0 ∧
    (nextClick s).2 = [Ev.gameOver s.totalScore] := by
  unfold nextClick
  rw [if_neg (by simp [hg])]
  by_cases hR : s.roundsTotal ≤ s.roundNum
  · rw [if_pos hR]
    exact ⟨rfl, rfl⟩
  · rw [if_neg hR]
    unfold proceedNextRound
    rw [if_pos (by omega)]
    exact ⟨rfl, rfl⟩

lemma play_step {s : GameState} {R N k : ℕ} (hA : ActiveAt s R N k)
    (h1 : 1 ≤ k) (_hkR : k ≤ R) (hkN : k ≤ N) (a b : ℚ) :
    (onMapClick s a b).hasGuessed = true ∧
    ((k < R ∧ k < N) →
      ActiveAt (nextClick (onMapClick s a b)).1 R N (k + 1) ∧
      (nextClick (onMapClick s a b)).2 = []) ∧
    (¬ (k < R ∧ k < N) →
      (nextClick (onMapClick s a b)).1.roundNum = 0 ∧
      (nextClick (onMapClick s a b)).2 =
        [Ev.gameOver (onMapClick s a b).totalScore]) := by
  obtain ⟨actual, hMap⟩ := guess_accepted hA h1 hkN a b
  obtain ⟨hR, hN, hk, hg, hci⟩ := hA
  rw [hMap]
  refine ⟨rfl, ?_, ?_⟩
  · rintro ⟨hR2, hN2⟩
    rw [nextClick_continue rfl (by show s.roundNum < s.roundsTotal; omega)
      (by show s.roundNum < s.images.length; omega)]
    refine ⟨⟨hR, ?_, ?_, rfl, ?_⟩, rfl⟩
    · show s.images.length = N
      exact hN
    · show s.roundNum + 1 = k + 1
      omega
    · show ((s.roundNum + 1 : ℕ) : ℤ) - 1 = ((k + 1 : ℕ) : ℤ) - 1
      rw [hk]
  · intro hnot
    have hend : s.roundsTotal ≤ s.roundNum ∨ s.images.length ≤ s.roundNum := by
      rw [hR, hN, hk]; omega
    exact nextClick_gameover rfl
      (show s.roundsTotal ≤ s.roundNum ∨ s.images.length ≤ s.roundNum from hend)

lemma playChain_active (g : ℕ → ℚ × ℚ) (s0 : GameState) (R N : ℕ)
    (h0 : ActiveAt s0 R N 1) :
    ∀ k, k + 1 ≤ min R N → ActiveAt (playChain g s0 k) R N (k + 1) := by
  intro k
  induction k with
  | zero => intro _; exact h0
  | succ k ih =>
      intro hk
      have hmin : k + 1 ≤ min R N := by omega
      have hprev : ActiveAt (playChain g s0 k) R N (k + 1) := ih hmin
      have hstep := play_step hprev (by omega) (by omega) (by omega) (g k).1 (g k).2
      exact (hstep.2.1 ⟨by omega, by omega⟩).1

lemma startGame_active (s : GameState) (L : List Loc) (r : ℕ → ℕ)
    (hRT : 1 ≤ s.roundsTotal) (hL : 1 ≤ L.length) :
    ActiveAt (startGame s L r).1 s.roundsTotal L.length 1 := by
  have hlen : (shuffle L r).length = L.length := shuffle_length L r
  unfold startGame
  rw [if_neg (by omega)]
  unfold proceedNextRound
  rw [if_neg (show ¬ (0 + 1 > s.roundsTotal ∨ 0 + 1 > (shuffle L r).length) by omega)]
  exact ⟨rfl, hlen, rfl, rfl, rfl⟩

/-! Claim theorems -/

/-- C1: `computeScore` agrees with the spec's scoring formula everywhere,
and takes the four stated example values: `score(0.5) = 5000`,
`score(1.0) = 5000`, `score(20000) = 0`, `score(40000) = 0`. -/
theorem computeScore_spec_C1 :
    (∀ d : ℚ, computeScore d = scoreSpecC1 d) ∧
    computeScore ((1 : ℚ) / 2) = 5000 ∧
    computeScore (1 : ℚ) = 5000 ∧
    computeScore (20000 : ℚ) = 0 ∧
    computeScore (40000 : ℚ) = 0 := by
  refine ⟨fun d => rfl, ?_, ?_, ?_, ?_⟩ <;> norm_num [computeScore, round_eq]

/-- C5: the scoring function is monotonically non-increasing on `[1, 20000]`,
and is `0` at every distance `≥ 20000` km.  Stated over `ℚ`, the exact-number
model of the JavaScript floats flowing through `computeScore`. -/
theorem computeScore_antitone_C5 :
    (∀ d1 d2 : ℚ, 1 ≤ d1 → d1 ≤ d2 → d2 ≤ 20000 → computeScore d2 ≤ computeScore d1) ∧
    (∀ d : ℚ, 20000 ≤ d → computeScore d = 0) := by
  constructor
  · intro d1 d2 h1 h12 h2
    by_cases hd1 : d1 ≤ 1
    · have : computeScore d1 = 5000 := by unfold computeScore; rw [if_pos hd1]
      rw [this]
      exact computeScore_le_5000 (by linarith)
    · have hd2 : ¬ d2 ≤ 1 := by push_neg at hd1 ⊢; linarith
      unfold computeScore
      rw [if_neg hd1, if_neg hd2]
      apply round_mono
      apply max_le_max (le_refl 0)
      have hmin : min (d1 / 20000) 1 ≤ min (d2 / 20000) 1 :=
        min_le_min (by linarith) (le_refl 1)
      nlinarith
  · intro d hd
    have hd1 : ¬ d ≤ 1 := by linarith
    unfold computeScore
    rw [if_neg hd1]
    have hmin : min (d / 20000) 1 = 1 := min_eq_right (by linarith)
    rw [hmin]
    simp

/-- Witness for C5 at concrete distances 1 ≤ 7 ≤ 20000 and 25000 ≥ 20000. -/
theorem computeScore_antitone_C5_witness :
    ((1 : ℚ) ≤ 1 ∧ (1 : ℚ) ≤ 7 ∧ (7 : ℚ) ≤ 20000 ∧
      computeScore (7 : ℚ) ≤ computeScore (1 : ℚ)) ∧
    ((20000 : ℚ) ≤ 25000 ∧ computeScore (25000 : ℚ) = 0) :=
  ⟨⟨by norm_num, by norm_num, by norm_num,
      computeScore_antitone_C5.1 1 7 (by norm_num) (by norm_num) (by norm_num)⟩,
    ⟨by norm_num, computeScore_antitone_C5.2 25000 (by norm_num)⟩⟩

/-- C4 (amended): `haversine` is symmetric and is zero at identical
coordinates.  (The converse — zero only at identical coordinates — is false;
see the counterexample theorem.) -/
theorem haversine_symm_zero_C4 :
    (∀ a b c d : ℝ, haversine a b c d = haversine c d a b) ∧
    (∀ x y : ℝ, haversine x y x y = 0) := by
  constructor
  · intro a b c d
    unfold haversine
    rw [havA_symm a b c d]
  · intro x y
    exact haversine_of_havA_zero (havA_self x y)

/-- C4 counterexample: the two distinct coordinate pairs `(90, 0)` and
`(90, 10)` (both at the north pole, different longitudes) have haversine
distance exactly `0`, so "zero iff identical coordinates" fails. -/
theorem haversine_zero_ne_C4_counterexample :
    haversine 90 0 90 10 = 0 ∧
    ((90 : ℝ), (0 : ℝ)) ≠ ((90 : ℝ), (10 : ℝ)) := by
  constructor
  · apply haversine_of_havA_zero
    unfold havA toRad
    have h90 : (90 : ℝ) * Real.pi / 180 = Real.pi / 2 := by ring
    rw [h90, Real.cos_pi_div_two]
    simp [sub_self]
  · intro h
    have h2 : (0 : ℝ) = 10 := congrArg Prod.snd h
    norm_num at h2

/-- C3: the guess handler is a no-op when the game is not started or over
(`roundNum = 0` — `endGame` resets `roundNum` to 0, so the not-started and
game-over states coincide on the session variables) or when the round was
already guessed; consequently a second map click in the same round never
changes the state again, so at most one guess is scored per round. -/
theorem submitGuess_noop_C3 (s : GameState) (g1a g1b g2a g2b : ℚ) :
    ((s.roundNum = 0 ∨ s.hasGuessed = true) → onMapClick s g1a g1b = s) ∧
    onMapClick (onMapClick s g1a g1b) g2a g2b = onMapClick s g1a g1b := by
  constructor
  · rintro (h | h)
    · exact onMapClick_of_roundZero h g1a g1b
    · exact onMapClick_of_hasGuessed h g1a g1b
  · by_cases h0 : s.roundNum = 0
    · rw [onMapClick_of_roundZero h0, onMapClick_of_roundZero h0]
    · by_cases h1 : s.hasGuessed = true
      · rw [onMapClick_of_hasGuessed h1, onMapClick_of_hasGuessed h1]
      · have h1f : s.hasGuessed = false := by
          cases hg : s.hasGuessed
          · rfl
          · exact absurd hg h1
        cases h2 : getLoc s.images s.currentIndex with
        | none =>
            rw [onMapClick_of_none h0 h1f h2, onMapClick_of_none h0 h1f h2]
        | some actual =>
            rw [onMapClick_of_some h0 h1f h2]
            exact onMapClick_of_hasGuessed rfl g2a g2b

/-- Witness for C3 at the initial (not-started) state. -/
theorem submitGuess_noop_C3_witness :
    (initState.roundNum = 0 ∨ initState.hasGuessed = true) ∧
    onMapClick initState 1 2 = initState ∧
    onMapClick (onMapClick initState 1 2) 3 4 = onMapClick initState 1 2 :=
  ⟨Or.inl rfl,
    (submitGuess_noop_C3 initState 1 2 3 4).1 (Or.inl rfl),
    (submitGuess_noop_C3 initState 1 2 3 4).2⟩

/-- C8: every per-round points value is non-negative, the guess handler never
decreases `totalScore`, and no transition other than `startGame`
(next-button click, round advance, game end) changes `totalScore` at all. -/
theorem totalScore_monotone_C8 (s : GameState) (glat glng : ℚ) (d : ℝ) :
    0 ≤ computeScore d ∧
    s.totalScore ≤ (onMapClick s glat glng).totalScore ∧
    (nextClick s).1.totalScore = s.totalScore ∧
    (proceedNextRound s).1.totalScore = s.totalScore ∧
    (endGame s).1.totalScore = s.totalScore :=
  ⟨computeScore_nonneg d, onMapClick_totalScore_le s glat glng,
    nextClick_totalScore s, proceedNextRound_totalScore s, endGame_totalScore s⟩

/-- C9: in every browser-reachable state, `roundNum ≤ roundsTotal` (and
`0 ≤ roundNum` holds by the `ℕ` type); while a round is active the active
location index is `roundNum - 1`, and a guess changes neither the index nor
the location list, so the active location is fixed for the round. -/
theorem roundIndex_invariant_C9 (s : GameState) (hs : Reachable s)
    (glat glng : ℚ) :
    s.roundNum ≤ s.roundsTotal ∧
    (1 ≤ s.roundNum → s.currentIndex = (s.roundNum : ℤ) - 1) ∧
    (onMapClick s glat glng).currentIndex = s.currentIndex ∧
    (onMapClick s glat glng).images = s.images := by
  have hInv := reachable_inv hs
  exact ⟨hInv.1, fun h => (hInv.2.1 h).2.1,
    (onMapClick_preserve s glat glng).2.1, (onMapClick_preserve s glat glng).1⟩

/-- Witness for C9 at the state reached by starting a game on one location. -/
theorem roundIndex_invariant_C9_witness :
    Reachable (startGame initState [locA] rzero).1 ∧
    ((startGame initState [locA] rzero).1.roundNum ≤
        (startGame initState [locA] rzero).1.roundsTotal ∧
      (1 ≤ (startGame initState [locA] rzero).1.roundNum →
        (startGame initState [locA] rzero).1.currentIndex =
          ((startGame initState [locA] rzero).1.roundNum : ℤ) - 1) ∧
      (onMapClick (startGame initState [locA] rzero).1 5 6).currentIndex =
        (startGame initState [locA] rzero).1.currentIndex ∧
      (onMapClick (startGame initState [locA] rzero).1 5 6).images =
        (startGame initState [locA] rzero).1.images) :=
  have hre : Reachable (startGame initState [locA] rzero).1 :=
    Reachable.start initState [locA] rzero Reachable.init rfl
  ⟨hre, roundIndex_invariant_C9 _ hre 5 6⟩

/-- C10: whenever a guess can be scored (game started, so `1 ≤ roundNum`, in
a reachable state), `currentIndex` lies in `[0, images.length)` and
`images[currentIndex]` is a defined location record: the out-of-bounds
(`undefined`) branch of the guess handler is unreachable. -/
theorem currentIndex_in_range_C10 (s : GameState) (hs : Reachable s)
    (h1 : 1 ≤ s.roundNum) :
    0 ≤ s.currentIndex ∧ s.currentIndex.toNat < s.images.length ∧
    (getLoc s.images s.currentIndex).isSome = true := by
  have hInv := reachable_inv hs
  obtain ⟨hsd, hci, hlen⟩ := hInv.2.1 h1
  have h0 : 0 ≤ s.currentIndex := by rw [hci]; omega
  have hlt : s.currentIndex.toNat < s.images.length := by rw [hci]; omega
  refine ⟨h0, hlt, ?_⟩
  unfold getLoc
  rw [if_neg (by omega)]
  simp [List.getElem?_eq_getElem hlt]

/-- Witness for C10 in round 1 of a game on one location. -/
theorem currentIndex_in_range_C10_witness :
    Reachable (startGame initState [locA] rzero).1 ∧
    1 ≤ (startGame initState [locA] rzero).1.roundNum ∧
    (0 ≤ (startGame initState [locA] rzero).1.currentIndex ∧
      (startGame initState [locA] rzero).1.currentIndex.toNat <
        (startGame initState [locA] rzero).1.images.length ∧
      (getLoc (startGame initState [locA] rzero).1.images
        (startGame initState [locA] rzero).1.currentIndex).isSome = true) :=
  have hre : Reachable (startGame initState [locA] rzero).1 :=
    Reachable.start initState [locA] rzero Reachable.init rfl
  ⟨hre, by decide, currentIndex_in_range_C10 _ hre (by decide)⟩

/-- C6 (amended): starting with an empty dataset (also the fetch-failure
case) raises the no-data alert and begins no round; every session variable
except the location list is unchanged, but `loadDataset` has already
overwritten `images` with the (empty) fetched dataset. -/
theorem startGame_empty_C6 (s : GameState) (r : ℕ → ℕ) :
    (startGame s [] r).2 = [Ev.noData] ∧
    (startGame s [] r).1 = { s with images := [] } ∧
    (startGame s [] r).1.roundNum = s.roundNum ∧
    (startGame s [] r).1.totalScore = s.totalScore ∧
    (startGame s [] r).1.hasGuessed = s.hasGuessed ∧
    (startGame s [] r).1.currentIndex = s.currentIndex := by
  rw [startGame_nil]
  exact ⟨rfl, rfl, rfl, rfl, rfl, rfl⟩

/-- C6 counterexample: invoking `startGame` with an empty dataset from the
(reachable) post-game state does change the session state — the loaded
location list `[locA]` is overwritten with `[]` — even though the alert is
raised and no round begins. -/
theorem startGame_empty_C6_counterexample :
    Reachable ceStateC6 ∧
    ceStateC6.images = [locA] ∧
    (startGame ceStateC6 [] rzero).2 = [Ev.noData] ∧
    (startGame ceStateC6 [] rzero).1 ≠ ceStateC6 := by
  have h0 : Reachable (startGame initState [locA] rzero).1 :=
    Reachable.start initState [locA] rzero Reachable.init rfl
  have h1 : Reachable (onMapClick (startGame initState [locA] rzero).1 0 0) :=
    Reachable.click _ 0 0 h0
  have hsome : getLoc (startGame initState [locA] rzero).1.images
      (startGame initState [locA] rzero).1.currentIndex = some locA := rfl
  have hguess : onMapClick (startGame initState [locA] rzero).1 0 0 =
      { (startGame initState [locA] rzero).1 with
        totalScore := (startGame initState [locA] rzero).1.totalScore +
          computeScore (haversine ((0 : ℚ) : ℝ) ((0 : ℚ) : ℝ)
            ((locA.lat : ℚ) : ℝ) ((locA.lng : ℚ) : ℝ)),
        hasGuessed := true, nextDisabled := false } :=
    onMapClick_of_some (by decide) (by decide) hsome 0 0
  have h2 : Reachable ceStateC6 := by
    refine Reachable.next _ h1 ?_
    rw [hguess]
  have himg : ceStateC6.images = [locA] := by
    show (nextClick _).1.images = [locA]
    rw [nextClick_images, (onMapClick_preserve _ 0 0).1]
    rfl
  refine ⟨h2, himg, ?_, ?_⟩
  · rw [startGame_nil]
  · rw [startGame_nil]
    intro h
    have hh : ({ ceStateC6 with images := ([] : List Loc) }).images =
        ceStateC6.images := congrArg GameState.images h
    rw [himg] at hh
    exact List.noConfusion hh

/-- C7: starting a game on a non-empty dataset stores a permutation of the
input locations (Fisher–Yates with in-range random draws `r i ≤ i`), resets
`totalScore` to 0 and `roundIndex` to 0, then advances to round 1 with
`locations[0]` (`currentIndex = 0`) active and raises no alert. -/
theorem startGame_shuffle_C7 (s : GameState) (L : List Loc) (r : ℕ → ℕ)
    (hr : ∀ i, r i ≤ i) (hL : 1 ≤ L.length) (hRT : 1 ≤ s.roundsTotal) :
    List.Perm (startGame s L r).1.images L ∧
    (startGame s L r).1.totalScore = 0 ∧
    (startGame s L r).1.roundNum = 1 ∧
    (startGame s L r).1.currentIndex = 0 ∧
    (startGame s L r).2 = [] := by
  have hlen : (shuffle L r).length = L.length := shuffle_length L r
  unfold startGame
  rw [if_neg (by omega)]
  unfold proceedNextRound
  rw [if_neg (show ¬ (0 + 1 > s.roundsTotal ∨ 0 + 1 > (shuffle L r).length) by omega)]
  refine ⟨shuffle_perm L r hr, rfl, rfl, show ((0 + 1 : ℕ) : ℤ) - 1 = 0 from rfl, rfl⟩

/-- Witness for C7 on the two-location dataset `[locA, locB]`. -/
theorem startGame_shuffle_C7_witness :
    (∀ i, rzero i ≤ i) ∧ 1 ≤ ([locA, locB] : List Loc).length ∧
    1 ≤ initState.roundsTotal ∧
    (List.Perm (startGame initState [locA, locB] rzero).1.images [locA, locB] ∧
      (startGame initState [locA, locB] rzero).1.totalScore = 0 ∧
      (startGame initState [locA, locB] rzero).1.roundNum = 1 ∧
      (startGame initState [locA, locB] rzero).1.currentIndex = 0 ∧
      (startGame initState [locA, locB] rzero).2 = []) :=
  ⟨fun i => Nat.zero_le i, by decide, by decide,
    startGame_shuffle_C7 initState [locA, locB] rzero
      (fun i => Nat.zero_le i) (by decide) (by decide)⟩

/-- C2: started on `N ≥ 1` locations with a round budget `roundsTotal ≥ 1`,
exactly `min roundsTotal N` rounds are playable: each of the first
`min roundsTotal N` rounds is active (correct round number, no guess yet)
and accepts one scored guess; next-clicks before round `min roundsTotal N`
raise no alert, the `min roundsTotal N`-th next-click raises the game-over
alert, and afterwards (`roundNum = 0`) further map clicks are ignored. -/
theorem rounds_playable_C2 (s : GameState) (L : List Loc) (r : ℕ → ℕ)
    (g : ℕ → ℚ × ℚ) (hRT : 1 ≤ s.roundsTotal) (hL : 1 ≤ L.length) :
    (∀ k, k < min s.roundsTotal L.length →
      (playChain g (startGame s L r).1 k).roundNum = k + 1 ∧
      (playChain g (startGame s L r).1 k).hasGuessed = false ∧
      (onMapClick (playChain g (startGame s L r).1 k) (g k).1 (g k).2).hasGuessed
        = true) ∧
    (∀ k, k + 1 < min s.roundsTotal L.length →
      playEv g (startGame s L r).1 k = []) ∧
    playEv g (startGame s L r).1 (min s.roundsTotal L.length - 1) =
      [Ev.gameOver
        (onMapClick
          (playChain g (startGame s L r).1 (min s.roundsTotal L.length - 1))
          (g (min s.roundsTotal L.length - 1)).1
          (g (min s.roundsTotal L.length - 1)).2).totalScore] ∧
    (playChain g (startGame s L r).1 (min s.roundsTotal L.length)).roundNum = 0 ∧
    (∀ a b : ℚ,
      onMapClick (playChain g (startGame s L r).1 (min s.roundsTotal L.length)) a b
        = playChain g (startGame s L r).1 (min s.roundsTotal L.length)) := by
  have h0 : ActiveAt (startGame s L r).1 s.roundsTotal L.length 1 :=
    startGame_active s L r hRT hL
  have hact := playChain_active g (startGame s L r).1 s.roundsTotal L.length h0
  have hM1 : 1 ≤ min s.roundsTotal L.length := by omega
  refine ⟨?_, ?_, ?_, ?_, ?_⟩
  · intro k hk
    have hA := hact k (by omega)
    have hstep := play_step hA (by omega) (by omega) (by omega) (g k).1 (g k).2
    exact ⟨hA.2.2.1, hA.2.2.2.1, hstep.1⟩
  · intro k hk
    have hA := hact k (by omega)
    have hstep := play_step hA (by omega) (by omega) (by omega) (g k).1 (g k).2
    exact (hstep.2.1 ⟨by omega, by omega⟩).2
  · have hA := hact (min s.roundsTotal L.length - 1) (by omega)
    have hstep := play_step hA (by omega) (by omega) (by omega)
      (g (min s.roundsTotal L.length - 1)).1 (g (min s.roundsTotal L.length - 1)).2
    exact (hstep.2.2 (by omega)).2
  · have hA := hact (min s.roundsTotal L.length - 1) (by omega)
    have hstep := play_step hA (by omega) (by omega) (by omega)
      (g (min s.roundsTotal L.length - 1)).1 (g (min s.roundsTotal L.length - 1)).2
    have hfin := (hstep.2.2 (by omega)).1
    rw [show min s.roundsTotal L.length =
      (min s.roundsTotal L.length - 1) + 1 from by omega]
    exact hfin
  · intro a b
    have hA := hact (min s.roundsTotal L.length - 1) (by omega)
    have hstep := play_step hA (by omega) (by omega) (by omega)
      (g (min s.roundsTotal L.length - 1)).1 (g (min s.roundsTotal L.length - 1)).2
    have hfin := (hstep.2.2 (by omega)).1
    have h4 : (playChain g (startGame s L r).1
        (min s.roundsTotal L.length)).roundNum = 0 := by
      rw [show min s.roundsTotal L.length =
        (min s.roundsTotal L.length - 1) + 1 from by omega]
      exact hfin
    exact onMapClick_of_roundZero h4 a b

/-- Witness for C2: two locations and the default budget of five rounds, so
exactly `min 5 2 = 2` rounds are playable. -/
theorem rounds_playable_C2_witness :
    1 ≤ initState.roundsTotal ∧ 1 ≤ ([locA, locB] : List Loc).length ∧
    ((∀ k, k < min initState.roundsTotal ([locA, locB] : List Loc).length →
      (playChain gconst (startGame initState [locA, locB] rzero).1 k).roundNum = k + 1 ∧
      (playChain gconst (startGame initState [locA, locB] rzero).1 k).hasGuessed = false ∧
      (onMapClick (playChain gconst (startGame initState [locA, locB] rzero).1 k)
        (gconst k).1 (gconst k).2).hasGuessed = true) ∧
    (∀ k, k + 1 < min initState.roundsTotal ([locA, locB] : List Loc).length →
      playEv gconst (startGame initState [locA, locB] rzero).1 k = []) ∧
    playEv gconst (startGame initState [locA, locB] rzero).1
        (min initState.roundsTotal ([locA, locB] : List Loc).length - 1) =
      [Ev.gameOver
        (onMapClick
          (playChain gconst (startGame initState [locA, locB] rzero).1
            (min initState.roundsTotal ([locA, locB] : List Loc).length - 1))
          (gconst (min initState.roundsTotal ([locA, locB] : List Loc).length - 1)).1
          (gconst (min initState.roundsTotal ([locA, locB] : List Loc).length - 1)).2).totalScore] ∧
    (playChain gconst (startGame initState [locA, locB] rzero).1
      (min initState.roundsTotal ([locA, locB] : List Loc).length)).roundNum = 0 ∧
    (∀ a b : ℚ,
      onMapClick (playChain gconst (startGame initState [locA, locB] rzero).1
        (min initState.roundsTotal ([locA, locB] : List Loc).length)) a b
        = playChain gconst (startGame initState [locA, locB] rzero).1
            (min initState.roundsTotal ([locA, locB] : List Loc).length))) :=
  ⟨by decide, by decide,
    rounds_playable_C2 initState [locA, locB] rzero gconst (by decide) (by decide)⟩

end GeoGuesser
